import Mathlib

/-!
Shallow embedding of the clinic-content-engine core (`src/cce`): string
utilities and retrieval from `utils.py`, guardrail evaluation and repair from
`guardrails.py`, the review state machine from `review.py`, and the grounding
selection from `generate.py`.  Texts are modelled as lists of characters.
Python's `re` module is abstracted as a `RegexEngine` record supplying
`re.search` and `re.sub(pattern, "", ·)`; literal (escaped) patterns and the
whitespace pattern are modelled concretely.
-/

/-- Texts are lists of characters. -/
abbrev Str := List Char

/-- Converts a Lean string literal into the character-list representation. -/
def str (s : String) : Str := s.data

/-- Characters matched by Python's `\s` on ASCII text. -/
def pySpace (c : Char) : Bool :=
  c == ' ' || c == '\t' || c == '\n' || c == '\r' || c == '\x0b' || c == '\x0c'

/-- Characters matched by the tokenizer class `[a-z0-9_]` of `utils.py`. -/
def wordChar (c : Char) : Bool :=
  ('a' ≤ c && c ≤ 'z') || ('0' ≤ c && c ≤ '9') || c == '_'

/-- Python `str.lower` on ASCII text. -/
def lowerStr (s : Str) : Str := s.map Char.toLower

/-- Helper for run splitting: cuts a text into segments, where an empty
segment marks each character not satisfying `keep`. -/
def runsAux (keep : Char → Bool) : Str → List Str
  | [] => []
  | c :: cs =>
    if keep c then
      match runsAux keep cs with
      | [] => [[c]]
      | w :: ws => (c :: w) :: ws
    else
      [] :: runsAux keep cs

/-- Maximal runs of characters satisfying `keep`, in order: the behaviour of
`re.findall` with a character-class-plus pattern. -/
def splitRuns (keep : Char → Bool) (s : Str) : List Str :=
  (runsAux keep s).filter (fun w => !w.isEmpty)

/-- Whitespace-separated words of a text, as produced by Python `str.split()`. -/
def words (s : Str) : List Str := splitRuns (fun c => !pySpace c) s

/-- Joins texts with a single separating space, as Python `" ".join`. -/
def joinSp : List Str → Str
  | [] => []
  | [w] => w
  | w :: ws => w ++ ' ' :: joinSp ws

/-- The helper `clean_text` of `utils.py`: `re.sub(r"\s+", " ", text).strip()`,
i.e. collapse every whitespace run to one space and trim the ends.  Expressed
as rejoining the whitespace-separated words. -/
def clean_text (s : Str) : Str := joinSp (words s)

/-- Python substring test `needle in hay`. -/
def containsSub (needle : Str) : Str → Bool
  | [] => needle.isEmpty
  | c :: rest => needle.isPrefixOf (c :: rest) || containsSub needle rest

/-- Python `x.startswith("#")`. -/
def startsWithHash (x : Str) : Bool := [ '#' ].isPrefixOf x

/-- Python `str.strip()`: removes leading and trailing whitespace. -/
def stripStr (x : Str) : Str :=
  ((x.dropWhile pySpace).reverse.dropWhile pySpace).reverse

/-- Helper for `splitLines`: splits at every newline, keeping a trailing
empty segment. -/
def splitLinesAux : Str → List Str
  | [] => [[]]
  | c :: rest =>
    if c == '\n' then [] :: splitLinesAux rest
    else
      match splitLinesAux rest with
      | [] => [[c]]
      | l :: ls => (c :: l) :: ls

/-- Python `str.splitlines()` restricted to `\n` terminators. -/
def splitLines (s : Str) : List Str :=
  let ls := splitLinesAux s
  if ls.getLast? = some [] then ls.dropLast else ls

/-- Tokenization of `utils.py`: `re.findall(r"[a-z0-9_]+", s.lower())`. -/
def tokenize (s : Str) : List Str := splitRuns wordChar (lowerStr s)

/-- The token set (deduplicated token list) used by the retriever. -/
def tokset (s : Str) : List Str := (tokenize s).dedup

/-! ## Data model (`models.py`) -/

/-- `DisclaimerRules` of `models.py`. -/
structure DisclaimerRules where
  always_include_default_disclaimer : Bool
  must_include_disclaimer_if_keywords : List Str
deriving DecidableEq

/-- `MedicalSafetyRules` of `models.py`. -/
structure MedicalSafetyRules where
  require_balanced_language : Bool
  avoid_diagnosis_language : Bool
  avoid_outcome_promises : Bool
  avoid_specific_treatment_advice : Option Bool
  avoid_before_after_encouragement : Option Bool
deriving DecidableEq

/-- `BeforeAfterPolicy` of `models.py`. -/
structure BeforeAfterPolicy where
  allowed_in_organic : Option Str
  allowed_in_promoted_ads : Option Bool
deriving DecidableEq

/-- `GuardrailsConfig` of `models.py`; banned claim patterns are kept as their
regular-expression source strings. -/
structure GuardrailsConfig where
  region : Str
  profile : Str
  banned_phrases : List Str
  banned_claim_patterns : List Str
  medical_safety_rules : MedicalSafetyRules
  before_after_policy : Option BeforeAfterPolicy
  disclaimer_rules : DisclaimerRules
deriving DecidableEq

/-- `DraftItem` of `models.py`. -/
structure DraftItem where
  id : Str
  platform : Str
  pillar : Str
  service : Str
  angle : Str
  caption : Str
  hashtags : List Str
  cta : Str
  disclaimer : Str
  reel_script : List Str
  retrieved_chunks : List Str
deriving DecidableEq

/-- Review status of a `ReviewedItem`. -/
inductive Status where
  | PASS
  | FAIL
  | FIXED
deriving DecidableEq

/-- `ReviewedItem` of `models.py`. -/
structure ReviewedItem where
  id : Str
  platform : Str
  pillar : Str
  service : Str
  status : Status
  reasons : List Str
  final_caption : Str
  final_hashtags : List Str
  final_cta : Str
  final_disclaimer : Str
  reel_script : List Str
deriving DecidableEq

/-- A knowledge-base chunk record as written by `ingest.py` and read by the
retriever (`source_file`, `chunk_id`, `text`). -/
structure Chunk where
  source_file : Str
  chunk_id : Str
  text : Str
deriving DecidableEq

/-- Abstraction of the `re` module operations applied to the configurable
banned-claim patterns: `search p t` decides `re.search(p, t)` and
`subEmpty p t` computes `re.sub(p, "", t)`. -/
structure RegexEngine where
  search : Str → Str → Bool
  subEmpty : Str → Str → Str

/-- A concrete engine for rule sets with no banned-claim patterns: nothing
matches and substitution is the identity. -/
def trivialEngine : RegexEngine :=
  { search := fun _ _ => false, subEmpty := fun _ t => t }

/-! ## Guardrail evaluation (`guardrails.py`, `evaluate_draft`) -/

/-- Result dict of `evaluate_draft`. -/
structure EvalResult where
  ok : Bool
  reasons : List Str
deriving DecidableEq

/-- The reason string `f"Banned phrase detected: {phrase}"`. -/
def bannedPhraseReason (phrase : Str) : Str :=
  str "Banned phrase detected: " ++ phrase

/-- The reason string `f"Banned claim pattern matched: {pattern}"`. -/
def bannedPatternReason (pat : Str) : Str :=
  str "Banned claim pattern matched: " ++ pat

/-- The reason string `f"Disclaimer required due to keyword: {keyword}"`. -/
def keywordReason (keyword : Str) : Str :=
  str "Disclaimer required due to keyword: " ++ keyword

/-- The reason string `"Default disclaimer missing"`. -/
def missingDisclaimerReason : Str := str "Default disclaimer missing"

/-- The text blob checked by the evaluator:
`f"{draft.caption}\n{draft.cta}\n{' '.join(draft.hashtags)}"`. -/
def draftBlob (draft : DraftItem) : Str :=
  draft.caption ++ '\n' :: draft.cta ++ '\n' :: joinSp draft.hashtags

/-- `evaluate_draft` of `guardrails.py`: accumulates violation reasons in
check order (banned phrases on the lower-cased blob, banned claim patterns on
the original-case blob, disclaimer-trigger keywords, missing default
disclaimer) and reports `ok` when no reason was collected. -/
def evaluate_draft (E : RegexEngine) (draft : DraftItem) (guardrails : GuardrailsConfig)
    (default_disclaimer : Str) : EvalResult :=
  let text := draftBlob draft
  let lower_text := lowerStr text
  let r1 := guardrails.banned_phrases.foldl
    (fun acc phrase =>
      if containsSub (lowerStr phrase) lower_text then acc ++ [bannedPhraseReason phrase]
      else acc) []
  let r2 := guardrails.banned_claim_patterns.foldl
    (fun acc pat => if E.search pat text then acc ++ [bannedPatternReason pat] else acc) r1
  let st := guardrails.disclaimer_rules.must_include_disclaimer_if_keywords.foldl
    (fun st keyword =>
      if containsSub (lowerStr keyword) lower_text then (true, st.2 ++ [keywordReason keyword])
      else st)
    (guardrails.disclaimer_rules.always_include_default_disclaimer, r2)
  let reasons :=
    if st.1 && !containsSub (lowerStr default_disclaimer) (lowerStr draft.disclaimer) then
      st.2 ++ [missingDisclaimerReason]
    else st.2
  { ok := reasons.length == 0, reasons := reasons }

/-! ## Deterministic local repair (`guardrails.py`, `apply_rewrite_fixes`) -/

/-- Fuel-based worker for `removeAllCI`: every step consumes at least one
character of the text, so fuel equal to the text length is always enough. -/
def removeAllCIAux (p : Str) : Nat → Str → Str
  | 0, s => s
  | _, [] => []
  | fuel + 1, c :: rest =>
    if (lowerStr p).isPrefixOf (lowerStr (c :: rest)) then
      removeAllCIAux p fuel (rest.drop (p.length - 1))
    else
      c :: removeAllCIAux p fuel rest

/-- Removes every case-insensitive occurrence of the nonempty literal `p`,
scanning left to right and consuming each match whole: the effect of
`re.sub(re.escape(p), "", s, flags=re.IGNORECASE)` for nonempty `p`. -/
def removeAllCI (p : Str) (s : Str) : Str := removeAllCIAux p s.length s

/-- `re.sub(re.escape(phrase), "", s, flags=re.IGNORECASE)`; an empty pattern
only inserts empty replacements and leaves the text unchanged. -/
def removePhraseCI (phrase : Str) (s : Str) : Str :=
  if phrase.isEmpty then s else removeAllCI phrase s

/-- Result dict of `apply_rewrite_fixes`. -/
structure RewriteResult where
  caption : Str
  disclaimer : Str
deriving DecidableEq

/-- `apply_rewrite_fixes` of `guardrails.py`: strip banned phrases
(case-insensitively), collapse whitespace, strip banned claim-pattern matches,
collapse whitespace again, and substitute the default disclaimer unless it is
already a case-insensitive substring of the current disclaimer. -/
def apply_rewrite_fixes (E : RegexEngine) (caption disclaimer : Str)
    (guardrails : GuardrailsConfig) (default_disclaimer : Str) : RewriteResult :=
  let c1 := guardrails.banned_phrases.foldl (fun acc phrase => removePhraseCI phrase acc) caption
  let c2 := clean_text c1
  let c3 := guardrails.banned_claim_patterns.foldl (fun acc pat => E.subEmpty pat acc) c2
  let c4 := clean_text c3
  let fixed_disclaimer :=
    if !containsSub (lowerStr default_disclaimer) (lowerStr disclaimer) then default_disclaimer
    else disclaimer
  { caption := c4, disclaimer := fixed_disclaimer }

/-! ## Review orchestration (`review.py`, `run_review`) -/

/-- A Generation Backend response at the review boundary: each field may be
omitted, and `hashtags` / `reel_script` may arrive either as a list or as a
single string (`models.py` loose typing handled in `review.py`). -/
structure BackendFix where
  caption : Option Str
  hashtags : Option (Sum (List Str) Str)
  cta : Option Str
  disclaimer : Option Str
  reel_script : Option (Sum (List Str) Str)
deriving DecidableEq

/-- The extra reason appended in the backend-unavailable repair branch. -/
def suggestedFixReason : Str :=
  str "Suggested fix provided in final_caption/final_disclaimer."

/-- Hashtag normalization of `review.py`: fall back to the draft's hashtags
when the field is omitted; split a string value on whitespace keeping only
tokens that start with `#`. -/
def normHashtagsResp (h : Option (Sum (List Str) Str)) (fallback : List Str) : List Str :=
  match h with
  | none => fallback
  | some (Sum.inl l) => l
  | some (Sum.inr s) => (words s).filter (fun x => startsWithHash x)

/-- Reel-script normalization of `review.py`: fall back to the draft's script
when the field is omitted; split a string value on line breaks keeping
non-blank lines. -/
def normReelResp (rs : Option (Sum (List Str) Str)) (fallback : List Str) : List Str :=
  match rs with
  | none => fallback
  | some (Sum.inl l) => l
  | some (Sum.inr s) => (splitLines s).filter (fun line => !(stripStr line).isEmpty)

/-- The per-draft body of `run_review`: evaluate, then produce the PASS,
assisted-rewrite (FIXED) or deterministic-repair (FAIL) record.  `enabled`
is the backend-availability switch and `fixed` the backend response consumed
by the assisted branch. -/
def review_draft (E : RegexEngine) (enabled : Bool) (fixed : BackendFix) (draft : DraftItem)
    (guardrails : GuardrailsConfig) (default_disclaimer : Str) : ReviewedItem :=
  let result := evaluate_draft E draft guardrails default_disclaimer
  if result.ok then
    { id := draft.id, platform := draft.platform, pillar := draft.pillar,
      service := draft.service, status := Status.PASS, reasons := result.reasons,
      final_caption := draft.caption, final_hashtags := draft.hashtags,
      final_cta := draft.cta,
      final_disclaimer := if draft.disclaimer.isEmpty then default_disclaimer
        else draft.disclaimer,
      reel_script := draft.reel_script }
  else if enabled then
    { id := draft.id, platform := draft.platform, pillar := draft.pillar,
      service := draft.service, status := Status.FIXED, reasons := result.reasons,
      final_caption := fixed.caption.getD draft.caption,
      final_hashtags := normHashtagsResp fixed.hashtags draft.hashtags,
      final_cta := fixed.cta.getD draft.cta,
      final_disclaimer := fixed.disclaimer.getD default_disclaimer,
      reel_script := normReelResp fixed.reel_script draft.reel_script }
  else
    let patched := apply_rewrite_fixes E draft.caption draft.disclaimer guardrails
      default_disclaimer
    { id := draft.id, platform := draft.platform, pillar := draft.pillar,
      service := draft.service, status := Status.FAIL,
      reasons := result.reasons ++ [suggestedFixReason],
      final_caption := patched.caption, final_hashtags := draft.hashtags,
      final_cta := draft.cta, final_disclaimer := patched.disclaimer,
      reel_script := draft.reel_script }

/-! ## Lexical retrieval (`utils.py`) -/

/-- `score_chunk` of `utils.py`: the size of the intersection of the query
token set with the chunk token set. -/
def score_chunk (query_terms : List Str) (chunk_text_value : Str) : Nat :=
  ((tokset chunk_text_value).filter (fun w => query_terms.contains w)).length

/-- Descending score order on scored chunks (ties considered equivalent). -/
def scoreGE (a b : Nat × Chunk) : Prop := b.1 ≤ a.1

instance : DecidableRel scoreGE := fun a b => Nat.decLe b.1 a.1

instance : IsTotal (Nat × Chunk) scoreGE := ⟨fun a b => Nat.le_total b.1 a.1⟩

instance : IsTrans (Nat × Chunk) scoreGE :=
  ⟨fun _ _ _ hab hbc => Nat.le_trans hbc hab⟩

/-- The stable descending sort performed by
`scored.sort(key=lambda x: x[0], reverse=True)`: Python's sort is stable and
`reverse=True` keeps equal-key elements in their original order, which is
exactly stable insertion sort under `scoreGE`. -/
def sortScoredDesc (l : List (Nat × Chunk)) : List (Nat × Chunk) :=
  l.insertionSort scoreGE

/-- `retrieve_relevant_chunks` of `utils.py`: score every chunk, keep the
positive scores paired with their chunks in corpus order, sort stably by score
descending, and return the first `top_k` chunks; when nothing scored, fall
back to the first `top_k` corpus chunks. -/
def retrieve_relevant_chunks (query : Str) (chunks : List Chunk) (top_k : Nat) : List Chunk :=
  let terms := tokset query
  let scored := chunks.foldl
    (fun acc chunk =>
      let score := score_chunk terms chunk.text
      if score > 0 then acc ++ [(score, chunk)] else acc) []
  if scored.isEmpty then chunks.take top_k
  else ((sortScoredDesc scored).take top_k).map (fun x => x.2)

/-! ## Grounding selection (`generate.py`, `run_generate` lines 71-73) -/

/-- The per-item grounding selection of `run_generate`:
`retrieved[: max(2, min(5, len(retrieved)))] if retrieved else kb_chunks[:2]`. -/
def select_grounding (kb_chunks : List Chunk) (query : Str) : List Chunk :=
  let retrieved := retrieve_relevant_chunks query kb_chunks 5
  if retrieved.isEmpty then kb_chunks.take 2
  else retrieved.take (max 2 (min 5 retrieved.length))

/-! ## Draft hashtag pipeline (`generate.py`, `run_generate` lines 100-118) -/

/-- The fixed default hashtag set substituted when the backend supplies none. -/
def defaultHashtags : List Str :=
  [ str "#ClinicEducation", str "#PatientCare", str "#Healthcare",
    str "#Toronto", str "#Wellness" ]

/-- The hashtag list stored on a `DraftItem` by `run_generate`: normalize the
raw backend value (string values are split on whitespace, stripped, and
filtered to `#`-initial tokens), substitute the default set when empty, and
cap at ten entries on write. -/
def draft_hashtags (raw : Option (Sum (List Str) Str)) : List Str :=
  let hashtags :=
    match raw with
    | none => []
    | some (Sum.inl l) => l
    | some (Sum.inr s) =>
      ((words s).filter (fun x => startsWithHash (stripStr x))).map (fun x => stripStr x)
  let hashtags := if hashtags.isEmpty then defaultHashtags else hashtags
  hashtags.take 10

/-! ## Chunking (`utils.py`, `chunk_text`) -/

/-- The while loop of `chunk_text`: emit `text[start : start+chunk_size]`,
skip empty slices, and advance by `step`; only reached with a positive step,
which the guard makes explicit for termination. -/
def chunkLoop (chars : Str) (chunk_size : Int) (step : Nat) (start : Nat) : List Str :=
  if h : start < chars.length ∧ 0 < step then
    let chunk := (chars.drop start).take chunk_size.toNat
    (if chunk.isEmpty then [] else [chunk]) ++ chunkLoop chars chunk_size step (start + step)
  else []
termination_by chars.length - start
decreasing_by omega

/-- `chunk_text` of `utils.py`: empty text yields no chunks before any
validation; `overlap >= chunk_size` is a configuration error; otherwise slice
with stride `chunk_size - overlap`. -/
def chunk_text (text : Str) (chunk_size overlap : Int) : Except Str (List Str) :=
  if text.isEmpty then Except.ok []
  else if overlap ≥ chunk_size then
    Except.error (str "overlap must be smaller than chunk_size")
  else Except.ok (chunkLoop text chunk_size (chunk_size - overlap).toNat 0)

/-! ## Concrete fixtures mirroring `tests/test_guardrails.py` -/

/-- A rule set fixture in the shape of the repository's test configuration:
given banned phrases, disclaimer-trigger keywords and the always-include
flag; no banned claim patterns. -/
def mkGuardrails (phrases kws : List Str) (always : Bool) : GuardrailsConfig :=
  { region := str "Ontario, Canada", profile := str "test",
    banned_phrases := phrases, banned_claim_patterns := [],
    medical_safety_rules := ⟨true, true, true, none, none⟩,
    before_after_policy := none,
    disclaimer_rules := ⟨always, kws⟩ }

/-- A draft fixture in the shape of the repository's test drafts. -/
def mkDraft (caption : Str) (hashtags : List Str) (cta disclaimer : Str) : DraftItem :=
  { id := str "1", platform := str "instagram", pillar := str "Myths vs Facts",
    service := str "Consultations", angle := str "myth vs fact",
    caption := caption, hashtags := hashtags, cta := cta, disclaimer := disclaimer,
    reel_script := [], retrieved_chunks := [] }

/-! ## Helper lemmas on run splitting and whitespace normalization -/

lemma runsAux_sep (keep : Char → Bool) (c : Char) (l : Str) (h : keep c = false) :
    runsAux keep (c :: l) = [] :: runsAux keep l := by
  simp [runsAux, h]

lemma runsAux_word (keep : Char → Bool) (w : Str) (hw : w ≠ [])
    (hall : ∀ c ∈ w, keep c = true) (l : Str) :
    runsAux keep (w ++ l) = (w ++ (runsAux keep l).headD []) :: (runsAux keep l).tail := by
  induction w with
  | nil => exact absurd rfl hw
  | cons a w ih =>
    have ha : keep a = true := hall a (List.mem_cons_self a w)
    cases w with
    | nil =>
      cases hr : runsAux keep l with
      | nil => simp [runsAux, ha, hr]
      | cons x xs => simp [runsAux, ha, hr]
    | cons b w' =>
      have ih' := ih (by simp) (fun c hc => hall c (List.mem_cons_of_mem a hc)) 
      simp only [List.cons_append] at ih' ⊢
      rw [runsAux, if_pos ha, ih']

lemma mem_runsAux (keep : Char → Bool) :
    ∀ (l : Str), ∀ w ∈ runsAux keep l, ∀ c ∈ w, keep c = true := by
  intro l
  induction l with
  | nil => intro w hw; simp [runsAux] at hw
  | cons a l ih =>
    intro w hw c hc
    by_cases ha : keep a = true
    · rw [runsAux, if_pos ha] at hw
      cases hr : runsAux keep l with
      | nil =>
        rw [hr] at hw
        simp at hw
        subst hw
        simp at hc
        subst hc
        exact ha
      | cons x xs =>
        rw [hr] at hw
        rcases List.mem_cons.mp hw with h1 | h2
        · subst h1
          rcases List.mem_cons.mp hc with h3 | h4
          · subst h3; exact ha
          · exact ih x (hr ▸ List.mem_cons_self x xs) c h4
        · exact ih w (hr ▸ List.mem_cons_of_mem x h2) c hc
    · rw [runsAux, if_neg ha] at hw
      rcases List.mem_cons.mp hw with h1 | h2
      · subst h1; simp at hc
      · exact ih w h2 c hc

lemma splitRuns_props (keep : Char → Bool) (s : Str) :
    ∀ w ∈ splitRuns keep s, w ≠ [] ∧ ∀ c ∈ w, keep c = true := by
  intro w hw
  rcases List.mem_filter.mp hw with ⟨hmem, hne⟩
  refine ⟨?_, mem_runsAux keep s w hmem⟩
  intro h
  subst h
  simp at hne

lemma splitRuns_joinSp (keep : Char → Bool) (hsp : keep ' ' = false) :
    ∀ (ws : List Str), (∀ w ∈ ws, w ≠ [] ∧ ∀ c ∈ w, keep c = true) →
      splitRuns keep (joinSp ws) = ws := by
  intro ws
  induction ws with
  | nil => intro _; simp [joinSp, splitRuns, runsAux]
  | cons w ws ih =>
    intro h
    have hw := h w (List.mem_cons_self w ws)
    cases ws with
    | nil =>
      have : joinSp [w] = w ++ [] := by simp [joinSp]
      rw [this, splitRuns, runsAux_word keep w hw.1 hw.2]
      simp [runsAux, hw.1]
    | cons w2 ws2 =>
      have hjoin : joinSp (w :: w2 :: ws2) = w ++ (' ' :: joinSp (w2 :: ws2)) := by
        simp [joinSp]
      rw [hjoin, splitRuns, runsAux_word keep w hw.1 hw.2,
        runsAux_sep keep ' ' _ hsp]
      simp only [List.headD_cons, List.tail_cons, List.append_nil]
      rw [List.filter_cons_of_pos (by simp [hw.1])]
      have := ih (fun x hx => h x (List.mem_cons_of_mem w hx))
      rw [splitRuns] at this
      rw [this]

lemma notSpace_space : (fun c => !pySpace c) ' ' = false := by decide

lemma clean_text_idem (s : Str) : clean_text (clean_text s) = clean_text s := by
  show joinSp (splitRuns _ (joinSp (splitRuns _ s))) = joinSp (splitRuns _ s)
  rw [splitRuns_joinSp _ notSpace_space _ (splitRuns_props _ s)]

/-! ## Helper lemmas on substring search and phrase removal -/

lemma isPrefixOf_self (l : Str) : l.isPrefixOf l = true := by
  induction l with
  | nil => rfl
  | cons c cs ih => simp [List.isPrefixOf, ih]

lemma containsSub_self (x : Str) : containsSub x x = true := by
  cases x with
  | nil => rfl
  | cons c r => simp [containsSub, isPrefixOf_self]

lemma removeAllCIAux_id (p : Str) :
    ∀ (fuel : Nat) (s : Str), containsSub (lowerStr p) (lowerStr s) = false →
      removeAllCIAux p fuel s = s := by
  intro fuel
  induction fuel with
  | zero => intro s _; cases s <;> rfl
  | succ n ih =>
    intro s h
    cases s with
    | nil => rfl
    | cons c rest =>
      have hc : lowerStr (c :: rest) = Char.toLower c :: lowerStr rest := rfl
      rw [hc, containsSub, Bool.or_eq_false_iff] at h
      rw [removeAllCIAux, if_neg (by rw [hc]; simp [h.1]), ih rest h.2]

lemma removeAllCI_id (p s : Str) (h : containsSub (lowerStr p) (lowerStr s) = false) :
    removeAllCI p s = s :=
  removeAllCIAux_id p s.length s h

lemma removePhraseCI_id (p s : Str) (h : containsSub (lowerStr p) (lowerStr s) = false) :
    removePhraseCI p s = s := by
  rw [removePhraseCI]
  split
  · rfl
  · exact removeAllCI_id p s h

/-! ## Helper lemmas on folds -/

lemma foldl_rm_id {α : Type} (g : α → Str → Str) (s : Str) :
    ∀ (l : List α), (∀ x ∈ l, g x s = s) → l.foldl (fun acc x => g x acc) s = s := by
  intro l
  induction l with
  | nil => intro _; rfl
  | cons x xs ih =>
    intro h
    rw [List.foldl_cons, h x (List.mem_cons_self x xs),
      ih (fun y hy => h y (List.mem_cons_of_mem x hy))]

lemma foldl_if_append {α β : Type} (p : α → Bool) (f : α → β) :
    ∀ (l : List α) (acc : List β),
      l.foldl (fun acc x => if p x then acc ++ [f x] else acc) acc
        = acc ++ (l.filter p).map f := by
  intro l
  induction l with
  | nil => intro acc; simp
  | cons x xs ih =>
    intro acc
    rw [List.foldl_cons]
    by_cases h : p x = true
    · rw [if_pos h, ih, List.filter_cons_of_pos h]
      simp
    · rw [if_neg h, ih, List.filter_cons_of_neg (by simpa using h)]

lemma foldl_keywords (p : Str → Bool) (f : Str → Str) :
    ∀ (kws : List Str) (m : Bool) (acc : List Str),
      kws.foldl (fun st k => if p k then (true, st.2 ++ [f k]) else st) (m, acc)
        = (m || kws.any p, acc ++ (kws.filter p).map f) := by
  intro kws
  induction kws with
  | nil => intro m acc; simp
  | cons k ks ih =>
    intro m acc
    rw [List.foldl_cons]
    by_cases h : p k = true
    · rw [if_pos h, ih, List.filter_cons_of_pos h]
      simp [h]
    · rw [if_neg h, ih, List.filter_cons_of_neg (by simpa using h)]
      simp [h]

/-! ## Helper lemmas on the stable descending sort and the retriever -/

lemma filter_score_orderedInsert (s : Nat) (x : Nat × Chunk) :
    ∀ (L : List (Nat × Chunk)),
      (List.orderedInsert scoreGE x L).filter (fun z => z.1 = s)
        = if x.1 = s then x :: L.filter (fun z => z.1 = s)
          else L.filter (fun z => z.1 = s) := by
  intro L
  induction L with
  | nil =>
    by_cases hx : x.1 = s
    · simp [List.orderedInsert, hx]
    · simp [List.orderedInsert, hx]
  | cons y ys ih =>
    rw [List.orderedInsert]
    by_cases hxy : scoreGE x y
    · rw [if_pos hxy]
      by_cases hx : x.1 = s <;> simp [List.filter_cons, hx]
    · rw [if_neg hxy]
      by_cases hx : x.1 = s
      · have hyne : ¬ (y.1 = s) := by
          unfold scoreGE at hxy
          omega
        rw [List.filter_cons_of_neg (by simpa using hyne), ih, if_pos hx, if_pos hx,
          List.filter_cons_of_neg (by simpa using hyne)]
      · by_cases hy : y.1 = s
        · rw [List.filter_cons_of_pos (by simpa using hy), ih, if_neg hx, if_neg hx,
            List.filter_cons_of_pos (by simpa using hy)]
        · rw [List.filter_cons_of_neg (by simpa using hy), ih, if_neg hx, if_neg hx,
            List.filter_cons_of_neg (by simpa using hy)]

lemma filter_score_sortScoredDesc (s : Nat) :
    ∀ (l : List (Nat × Chunk)),
      (sortScoredDesc l).filter (fun z => z.1 = s) = l.filter (fun z => z.1 = s) := by
  intro l
  induction l with
  | nil => rfl
  | cons x xs ih =>
    show (List.orderedInsert scoreGE x (List.insertionSort scoreGE xs)).filter _ = _
    rw [filter_score_orderedInsert]
    by_cases hx : x.1 = s
    · rw [if_pos hx]
      rw [show (List.insertionSort scoreGE xs).filter (fun z => z.1 = s)
          = xs.filter (fun z => z.1 = s) from ih]
      rw [List.filter_cons_of_pos (by simpa using hx)]
    · rw [if_neg hx]
      rw [show (List.insertionSort scoreGE xs).filter (fun z => z.1 = s)
          = xs.filter (fun z => z.1 = s) from ih]
      rw [List.filter_cons_of_neg (by simpa using hx)]

lemma scored_foldl_eq (terms : List Str) :
    ∀ (chunks : List Chunk) (acc : List (Nat × Chunk)),
      chunks.foldl (fun acc chunk =>
          let score := score_chunk terms chunk.text
          if score > 0 then acc ++ [(score, chunk)] else acc) acc
        = acc ++ (chunks.filter (fun c => 0 < score_chunk terms c.text)).map
            (fun c => (score_chunk terms c.text, c)) := by
  intro chunks
  induction chunks with
  | nil => intro acc; simp
  | cons c cs ih =>
    intro acc
    rw [List.foldl_cons]
    dsimp only
    by_cases h : 0 < score_chunk terms c.text
    · rw [if_pos h, ih, List.filter_cons_of_pos (by simpa using h)]
      simp
    · rw [if_neg h, ih, List.filter_cons_of_neg (by simpa using h)]

lemma retrieve_eq (query : Str) (chunks : List Chunk) (top_k : Nat) :
    retrieve_relevant_chunks query chunks top_k =
      if ((chunks.filter (fun c => 0 < score_chunk (tokset query) c.text)).map
            (fun c => (score_chunk (tokset query) c.text, c))).isEmpty then
        chunks.take top_k
      else
        ((sortScoredDesc ((chunks.filter (fun c => 0 < score_chunk (tokset query) c.text)).map
            (fun c => (score_chunk (tokset query) c.text, c)))).take top_k).map
          (fun x => x.2) := by
  rw [retrieve_relevant_chunks]
  dsimp only
  rw [scored_foldl_eq]
  simp only [List.nil_append]

/-! ## Claim C5: retriever scoring, ordering and stability -/

/-- C5: for every query and corpus with at least one positively scored chunk,
the Lexical Retriever returns the at most `top_k` chunks among those with a
nonzero query/chunk token-set-intersection score, sorted by score descending,
and within any one score value the output lists those chunks as a prefix of
their original corpus order (stable ordering); the output length is
`min top_k` (number of positively scored chunks).  Determinism across
repeated calls is inherent in the purely functional model. -/
theorem retrieve_relevant_chunks_spec (query : Str) (chunks : List Chunk) (k : Nat)
    (hpos : ∃ c ∈ chunks, 0 < score_chunk (tokset query) c.text) :
    ((retrieve_relevant_chunks query chunks k).length
        = min k (chunks.filter (fun c => 0 < score_chunk (tokset query) c.text)).length)
    ∧ (∀ c ∈ retrieve_relevant_chunks query chunks k, 0 < score_chunk (tokset query) c.text)
    ∧ (retrieve_relevant_chunks query chunks k).Pairwise
        (fun a b => score_chunk (tokset query) b.text ≤ score_chunk (tokset query) a.text)
    ∧ ∀ s, ∃ t,
        (retrieve_relevant_chunks query chunks k).filter
            (fun c => score_chunk (tokset query) c.text = s) ++ t
          = (chunks.filter (fun c => 0 < score_chunk (tokset query) c.text)).filter
              (fun c => score_chunk (tokset query) c.text = s) := by
  obtain ⟨c0, hc0, hs0⟩ := hpos
  have hcpos : c0 ∈ chunks.filter (fun c => 0 < score_chunk (tokset query) c.text) :=
    List.mem_filter.mpr ⟨hc0, by simpa using hs0⟩
  set terms := tokset query with hterms
  set pos := chunks.filter (fun c => 0 < score_chunk terms c.text) with hposdef
  set scored := pos.map (fun c => (score_chunk terms c.text, c)) with hscored
  have hne : scored.isEmpty = false := by
    rcases pos with _ | ⟨p, ps⟩
    · exact absurd hcpos (by simp)
    · simp [hscored]
  have hout : retrieve_relevant_chunks query chunks k
      = ((sortScoredDesc scored).take k).map (fun x => x.2) := by
    rw [retrieve_eq, ← hterms, ← hposdef, ← hscored, hne]
    simp
  have hperm : List.Perm (sortScoredDesc scored) scored :=
    List.perm_insertionSort scoreGE scored
  have hmem_scored : ∀ x ∈ sortScoredDesc scored,
      x.1 = score_chunk terms x.2.text ∧ x.2 ∈ pos := by
    intro x hx
    have hx2 : x ∈ scored := hperm.mem_iff.mp hx
    rcases List.mem_map.mp hx2 with ⟨c, hc, rfl⟩
    exact ⟨rfl, hc⟩
  refine ⟨?_, ?_, ?_, ?_⟩
  · rw [hout, List.length_map, List.length_take]
    have : (sortScoredDesc scored).length = pos.length := by
      rw [sortScoredDesc, List.length_insertionSort, hscored, List.length_map]
    rw [this]
  · intro c hc
    rw [hout] at hc
    rcases List.mem_map.mp hc with ⟨x, hx, rfl⟩
    have hx' := hmem_scored x (List.take_subset k _ hx)
    have := List.mem_filter.mp hx'.2
    simpa using this.2
  · rw [hout]
    rw [List.pairwise_map]
    have hsorted : (sortScoredDesc scored).Pairwise scoreGE :=
      List.sorted_insertionSort scoreGE scored
    have htake : ((sortScoredDesc scored).take k).Pairwise scoreGE :=
      hsorted.sublist (List.take_sublist k _)
    refine htake.imp_of_mem ?_
    intro a b ha hb hr
    have ha' := hmem_scored a (List.take_subset k _ ha)
    have hb' := hmem_scored b (List.take_subset k _ hb)
    unfold scoreGE at hr
    rw [ha'.1, hb'.1] at hr
    exact hr
  · intro s
    refine ⟨(((sortScoredDesc scored).drop k).filter (fun z => z.1 = s)).map (fun x => x.2), ?_⟩
    rw [hout]
    rw [List.filter_map]
    have hcongr : ((sortScoredDesc scored).take k).filter
        ((fun c => decide (score_chunk terms c.text = s)) ∘ (fun x => x.2))
        = ((sortScoredDesc scored).take k).filter (fun z => z.1 = s) := by
      apply List.filter_congr
      intro x hx
      have hx' := hmem_scored x (List.take_subset k _ hx)
      simp [Function.comp, hx'.1]
    rw [hcongr]
    rw [← List.map_append, ← List.filter_append, List.take_append_drop]
    rw [filter_score_sortScoredDesc]
    rw [hscored, List.filter_map]
    have hcongr2 : pos.filter ((fun z : Nat × Chunk => decide (z.1 = s))
        ∘ (fun c => (score_chunk terms c.text, c)))
        = pos.filter (fun c => score_chunk terms c.text = s) := by
      apply List.filter_congr
      intro c _
      simp [Function.comp]
    rw [hcongr2, List.map_map]
    have hid : ((fun x : Nat × Chunk => x.2) ∘ (fun c : Chunk => (score_chunk terms c.text, c)))
        = id := rfl
    rw [hid, List.map_id]

/-- Witness for C5: a two-chunk corpus in which one chunk matches the query;
the stability conclusion is obtained from the theorem at score value 1. -/
theorem retrieve_relevant_chunks_spec_witness :
    ∃ t,
      (retrieve_relevant_chunks (str "alpha")
          [⟨str "f", str "c1", str "alpha beta"⟩, ⟨str "f", str "c2", str "gamma"⟩] 5).filter
          (fun c => score_chunk (tokset (str "alpha")) c.text = 1) ++ t
        = ([⟨str "f", str "c1", str "alpha beta"⟩,
            (⟨str "f", str "c2", str "gamma"⟩ : Chunk)].filter
              (fun c => 0 < score_chunk (tokset (str "alpha")) c.text)).filter
            (fun c => score_chunk (tokset (str "alpha")) c.text = 1) :=
  (retrieve_relevant_chunks_spec (str "alpha")
    [⟨str "f", str "c1", str "alpha beta"⟩, ⟨str "f", str "c2", str "gamma"⟩] 5
    ⟨⟨str "f", str "c1", str "alpha beta"⟩, by decide, by decide⟩).2.2.2 1

/-! ## Claim C6: retriever all-zero fallback -/

lemma retrieve_len_le (query : Str) (chunks : List Chunk) (k : Nat) :
    (retrieve_relevant_chunks query chunks k).length ≤ k := by
  rw [retrieve_eq]
  split
  · exact List.length_take_le k chunks
  · rw [List.length_map]
    exact List.length_take_le k _

/-- C6: when no chunk has a nonzero overlap score with the query, the
retriever returns exactly the first `top_k` corpus chunks in corpus order. -/
theorem retrieve_fallback_spec (query : Str) (chunks : List Chunk) (k : Nat)
    (hzero : ∀ c ∈ chunks, score_chunk (tokset query) c.text = 0) :
    retrieve_relevant_chunks query chunks k = chunks.take k := by
  rw [retrieve_eq]
  have hfil : chunks.filter (fun c => 0 < score_chunk (tokset query) c.text) = [] := by
    rw [List.filter_eq_nil_iff]
    intro c hc
    simp [hzero c hc]
  rw [hfil]
  simp

/-- Witness for C6: a two-chunk corpus sharing no token with the query. -/
theorem retrieve_fallback_spec_witness :
    retrieve_relevant_chunks (str "alpha")
        [⟨str "f", str "c1", str "gamma"⟩, ⟨str "f", str "c2", str "delta"⟩] 5
      = [⟨str "f", str "c1", str "gamma"⟩, ⟨str "f", str "c2", str "delta"⟩] :=
  retrieve_fallback_spec (str "alpha")
    [⟨str "f", str "c1", str "gamma"⟩, ⟨str "f", str "c2", str "delta"⟩] 5 (by decide)

/-! ## Claim C4: grounding selection bounds -/

/-- C4 counterexample: with a one-chunk corpus matching the query, retrieval
yields one result and the Draft Synthesizer selects exactly one chunk, not
between 2 and 5 as the claim states. -/
theorem select_grounding_single_counterexample :
    retrieve_relevant_chunks (str "hello") [⟨str "f", str "c1", str "hello world"⟩] 5 ≠ []
    ∧ (select_grounding [⟨str "f", str "c1", str "hello world"⟩] (str "hello")).length = 1 := by
  exact ⟨by decide, by decide⟩

/-- C4 amended: whenever retrieval (top-5) yields at least one result, the
Draft Synthesizer takes the first `min(5, max(2, count))` of the retrieved
chunks, which — since at most five are retrieved — is all of them: between 1
and 5 chunks, and between 2 and 5 whenever at least two were retrieved.  When
retrieval yields no results it selects the first two corpus chunks. -/
theorem select_grounding_spec (kb : List Chunk) (q : Str) :
    (retrieve_relevant_chunks q kb 5 ≠ [] →
      select_grounding kb q
          = (retrieve_relevant_chunks q kb 5).take
              (min 5 (max 2 (retrieve_relevant_chunks q kb 5).length))
      ∧ select_grounding kb q = retrieve_relevant_chunks q kb 5
      ∧ 1 ≤ (select_grounding kb q).length
      ∧ (select_grounding kb q).length ≤ 5
      ∧ (2 ≤ (retrieve_relevant_chunks q kb 5).length → 2 ≤ (select_grounding kb q).length))
    ∧ (retrieve_relevant_chunks q kb 5 = [] → select_grounding kb q = kb.take 2) := by
  have hr5 : (retrieve_relevant_chunks q kb 5).length ≤ 5 := retrieve_len_le q kb 5
  constructor
  · intro hne
    have hie : (retrieve_relevant_chunks q kb 5).isEmpty = false := by
      cases hrr : retrieve_relevant_chunks q kb 5 with
      | nil => exact absurd hrr hne
      | cons a l => rfl
    have hsel : select_grounding kb q
        = (retrieve_relevant_chunks q kb 5).take
            (max 2 (min 5 (retrieve_relevant_chunks q kb 5).length)) := by
      rw [select_grounding]
      rw [hie]
      simp
    have hminmax : max 2 (min 5 (retrieve_relevant_chunks q kb 5).length)
        = min 5 (max 2 (retrieve_relevant_chunks q kb 5).length) := by
      omega
    have hwhole : (retrieve_relevant_chunks q kb 5).take
        (max 2 (min 5 (retrieve_relevant_chunks q kb 5).length))
        = retrieve_relevant_chunks q kb 5 := by
      apply List.take_of_length_le
      omega
    have hlen1 : 1 ≤ (retrieve_relevant_chunks q kb 5).length :=
      List.length_pos.mpr hne
    refine ⟨by rw [hsel, hminmax], by rw [hsel, hwhole], ?_, ?_, ?_⟩
    · rw [hsel, hwhole]; exact hlen1
    · rw [hsel, hwhole]; exact hr5
    · intro h2; rw [hsel, hwhole]; exact h2
  · intro hnil
    have hie : (retrieve_relevant_chunks q kb 5).isEmpty = true := by
      rw [hnil]; rfl
    rw [select_grounding]
    rw [hie]
    simp

/-- Witness for C4: a two-chunk corpus, both chunks matching the query: the
selection is all of the retrieved chunks. -/
theorem select_grounding_spec_witness :
    retrieve_relevant_chunks (str "hello")
        [⟨str "f", str "c1", str "hello one"⟩, ⟨str "f", str "c2", str "hello two"⟩] 5 ≠ []
    ∧ select_grounding
        [⟨str "f", str "c1", str "hello one"⟩, ⟨str "f", str "c2", str "hello two"⟩]
        (str "hello")
      = retrieve_relevant_chunks (str "hello")
          [⟨str "f", str "c1", str "hello one"⟩, ⟨str "f", str "c2", str "hello two"⟩] 5 :=
  ⟨by decide,
    ((select_grounding_spec
      [⟨str "f", str "c1", str "hello one"⟩, ⟨str "f", str "c2", str "hello two"⟩]
      (str "hello")).1 (by decide)).2.1⟩

/-! ## Claim C7: chunking configuration error -/

/-- C7 counterexample: for empty text the chunker returns an empty chunk list
before the overlap validation, even when overlap ≥ chunk size, instead of
failing with a configuration error for every text. -/
theorem chunk_text_empty_counterexample :
    chunk_text [] 10 10 = Except.ok [] := rfl

/-- C7 amended: for every nonempty text and parameters with overlap ≥ chunk
size, the chunker fails with the configuration error before producing any
chunk; empty text short-circuits to an empty chunk list before validation. -/
theorem chunk_text_config_error (text : Str) (chunk_size overlap : Int)
    (htext : text ≠ []) (hov : chunk_size ≤ overlap) :
    chunk_text text chunk_size overlap
      = Except.error (str "overlap must be smaller than chunk_size") := by
  rw [chunk_text]
  rw [if_neg (by simpa using htext)]
  rw [if_pos hov]

/-- Witness for C7: two characters, chunk size 3, overlap 5. -/
theorem chunk_text_config_error_witness :
    chunk_text (str "ab") 3 5 = Except.error (str "overlap must be smaller than chunk_size") :=
  chunk_text_config_error (str "ab") 3 5 (by decide) (by decide)

/-! ## Claim C3: local repair idempotence -/

/-- C3 counterexample: with banned phrase "ab" and caption "aabb", one
application of the local repair leaves caption "ab" (removing the single
occurrence splices a new one together), and a second application removes it:
the repair is not idempotent as claimed. -/
theorem apply_rewrite_fixes_not_idempotent :
    (apply_rewrite_fixes trivialEngine
        ((apply_rewrite_fixes trivialEngine (str "aabb") (str "General education")
            (mkGuardrails [ str "ab" ] [] true) (str "Edu")).caption)
        ((apply_rewrite_fixes trivialEngine (str "aabb") (str "General education")
            (mkGuardrails [ str "ab" ] [] true) (str "Edu")).disclaimer)
        (mkGuardrails [ str "ab" ] [] true) (str "Edu")).caption
      ≠ (apply_rewrite_fixes trivialEngine (str "aabb") (str "General education")
          (mkGuardrails [ str "ab" ] [] true) (str "Edu")).caption := by
  decide

/-- C3 amended: the local repair is idempotent whenever the once-repaired
caption contains no banned phrase (case-insensitively) and every banned-claim
pattern substitution leaves it unchanged — in particular the disclaimer is
always unchanged by the second pass; without that proviso a removal can
splice together a new banned occurrence (see the counterexample). -/
theorem apply_rewrite_fixes_idem_of_clean (E : RegexEngine) (caption disclaimer : Str)
    (g : GuardrailsConfig) (dd : Str)
    (hph : ∀ p ∈ g.banned_phrases,
      containsSub (lowerStr p)
        (lowerStr (apply_rewrite_fixes E caption disclaimer g dd).caption) = false)
    (hpat : ∀ p ∈ g.banned_claim_patterns,
      E.subEmpty p (apply_rewrite_fixes E caption disclaimer g dd).caption
        = (apply_rewrite_fixes E caption disclaimer g dd).caption) :
    apply_rewrite_fixes E (apply_rewrite_fixes E caption disclaimer g dd).caption
        (apply_rewrite_fixes E caption disclaimer g dd).disclaimer g dd
      = apply_rewrite_fixes E caption disclaimer g dd := by
  have hcap_clean : clean_text (apply_rewrite_fixes E caption disclaimer g dd).caption
      = (apply_rewrite_fixes E caption disclaimer g dd).caption := by
    simp only [apply_rewrite_fixes]
    exact clean_text_idem _
  have hdisc : containsSub (lowerStr dd)
      (lowerStr (apply_rewrite_fixes E caption disclaimer g dd).disclaimer) = true := by
    simp only [apply_rewrite_fixes]
    by_cases hcd : containsSub (lowerStr dd) (lowerStr disclaimer) = true
    · simp [hcd]
    · simp [hcd]
      exact containsSub_self (lowerStr dd)
  conv_lhs => rw [apply_rewrite_fixes]
  rw [foldl_rm_id _ _ _
    (fun p hp => removePhraseCI_id p _ (hph p hp))]
  rw [hcap_clean]
  rw [foldl_rm_id _ _ _ (fun p hp => hpat p hp)]
  rw [hcap_clean]
  rw [hdisc]
  simp

/-- Witness for C3: banned phrase "xy", caption "hexyllo": the repaired
caption "hello" is free of banned phrases, so the second pass is a no-op. -/
theorem apply_rewrite_fixes_idem_witness :
    apply_rewrite_fixes trivialEngine
        (apply_rewrite_fixes trivialEngine (str "hexyllo") (str "General")
          (mkGuardrails [ str "xy" ] [] true) (str "Edu")).caption
        (apply_rewrite_fixes trivialEngine (str "hexyllo") (str "General")
          (mkGuardrails [ str "xy" ] [] true) (str "Edu")).disclaimer
        (mkGuardrails [ str "xy" ] [] true) (str "Edu")
      = apply_rewrite_fixes trivialEngine (str "hexyllo") (str "General")
          (mkGuardrails [ str "xy" ] [] true) (str "Edu") :=
  apply_rewrite_fixes_idem_of_clean trivialEngine (str "hexyllo") (str "General")
    (mkGuardrails [ str "xy" ] [] true) (str "Edu") (by decide) (by decide)

/-! ## Claim C10: local repair always whitespace-normalizes the caption -/

/-- C10: the caption returned by the local repair is always a fixed point of
whitespace normalization, and when no banned phrase occurs in the caption and
no banned-claim pattern rewrites it, the returned caption is exactly the
whitespace-normalized original caption — so a caption whose only defect is a
missing disclaimer can come back with altered whitespace. -/
theorem rewrite_caption_normalized_spec (E : RegexEngine) (caption disclaimer : Str)
    (g : GuardrailsConfig) (dd : Str) :
    clean_text (apply_rewrite_fixes E caption disclaimer g dd).caption
        = (apply_rewrite_fixes E caption disclaimer g dd).caption
    ∧ ((∀ p ∈ g.banned_phrases, containsSub (lowerStr p) (lowerStr caption) = false) →
        (∀ p ∈ g.banned_claim_patterns,
          E.subEmpty p (clean_text caption) = clean_text caption) →
        (apply_rewrite_fixes E caption disclaimer g dd).caption = clean_text caption) := by
  constructor
  · simp only [apply_rewrite_fixes]
    exact clean_text_idem _
  · intro hph hpat
    simp only [apply_rewrite_fixes]
    rw [foldl_rm_id _ _ _ (fun p hp => removePhraseCI_id p caption (hph p hp))]
    rw [foldl_rm_id _ _ _ (fun p hp => hpat p hp)]
    exact clean_text_idem caption

/-- Witness for C10: an empty rule set and caption "a  b": the repair returns
the normalized caption "a b", which differs from the input caption. -/
theorem rewrite_caption_normalized_witness :
    (apply_rewrite_fixes trivialEngine (str "a  b") (str "General")
        (mkGuardrails [] [] true) (str "Edu")).caption = clean_text (str "a  b")
    ∧ clean_text (str "a  b") ≠ str "a  b" :=
  ⟨(rewrite_caption_normalized_spec trivialEngine (str "a  b") (str "General")
      (mkGuardrails [] [] true) (str "Edu")).2 (by decide) (by decide),
   by decide⟩

/-! ## Claim C1: guardrail evaluation result shape -/

/-- C1: the Guardrail Evaluator returns ok exactly when the reasons list is
empty; the reasons list is the concatenation, in check order 1→2→3, of the
banned-phrase reasons (case-insensitive substring matches against the
lower-cased caption+CTA+hashtags blob), the banned-claim-pattern reasons
(matched against the original-case blob), the keyword-trigger reasons, and
the missing-default-disclaimer reason, each category in the rule set's
declared order; and a present trigger keyword whose draft disclaimer lacks
the default text yields both the keyword-triggered reason and the
missing-default-disclaimer reason. -/
theorem evaluate_draft_spec (E : RegexEngine) (draft : DraftItem) (g : GuardrailsConfig)
    (dd : Str) :
    ((evaluate_draft E draft g dd).ok = true ↔ (evaluate_draft E draft g dd).reasons = [])
    ∧ (evaluate_draft E draft g dd).reasons
        = ((g.banned_phrases.filter
              (fun p => containsSub (lowerStr p) (lowerStr (draftBlob draft)))).map
            bannedPhraseReason)
          ++ ((g.banned_claim_patterns.filter (fun p => E.search p (draftBlob draft))).map
              bannedPatternReason)
          ++ ((g.disclaimer_rules.must_include_disclaimer_if_keywords.filter
              (fun kw => containsSub (lowerStr kw) (lowerStr (draftBlob draft)))).map
              keywordReason)
          ++ (if (g.disclaimer_rules.always_include_default_disclaimer
                  || g.disclaimer_rules.must_include_disclaimer_if_keywords.any
                      (fun kw => containsSub (lowerStr kw) (lowerStr (draftBlob draft))))
                && !containsSub (lowerStr dd) (lowerStr draft.disclaimer)
              then [missingDisclaimerReason] else [])
    ∧ (∀ kw ∈ g.disclaimer_rules.must_include_disclaimer_if_keywords,
        containsSub (lowerStr kw) (lowerStr (draftBlob draft)) = true →
        containsSub (lowerStr dd) (lowerStr draft.disclaimer) = false →
        keywordReason kw ∈ (evaluate_draft E draft g dd).reasons
        ∧ missingDisclaimerReason ∈ (evaluate_draft E draft g dd).reasons) := by
  have hreasons : (evaluate_draft E draft g dd).reasons
      = ((g.banned_phrases.filter
            (fun p => containsSub (lowerStr p) (lowerStr (draftBlob draft)))).map
          bannedPhraseReason)
        ++ ((g.banned_claim_patterns.filter (fun p => E.search p (draftBlob draft))).map
            bannedPatternReason)
        ++ ((g.disclaimer_rules.must_include_disclaimer_if_keywords.filter
            (fun kw => containsSub (lowerStr kw) (lowerStr (draftBlob draft)))).map
            keywordReason)
        ++ (if (g.disclaimer_rules.always_include_default_disclaimer
                || g.disclaimer_rules.must_include_disclaimer_if_keywords.any
                    (fun kw => containsSub (lowerStr kw) (lowerStr (draftBlob draft))))
              && !containsSub (lowerStr dd) (lowerStr draft.disclaimer)
            then [missingDisclaimerReason] else []) := by
    simp only [evaluate_draft, foldl_if_append, foldl_keywords, List.nil_append]
    by_cases hc : ((g.disclaimer_rules.always_include_default_disclaimer
          || g.disclaimer_rules.must_include_disclaimer_if_keywords.any
              (fun kw => containsSub (lowerStr kw) (lowerStr (draftBlob draft))))
        && !(containsSub (lowerStr dd) (lowerStr draft.disclaimer))) = true
    · rw [if_pos hc, if_pos hc]
    · rw [if_neg hc, if_neg hc, List.append_nil]
  have hok : (evaluate_draft E draft g dd).ok
      = ((evaluate_draft E draft g dd).reasons.length == 0) := rfl
  refine ⟨?_, hreasons, ?_⟩
  · rw [hok]
    simp [List.length_eq_zero]
  · intro kw hkw htrig hmiss
    have hcond : ((g.disclaimer_rules.always_include_default_disclaimer
          || g.disclaimer_rules.must_include_disclaimer_if_keywords.any
              (fun kw => containsSub (lowerStr kw) (lowerStr (draftBlob draft))))
        && !(containsSub (lowerStr dd) (lowerStr draft.disclaimer))) = true := by
      rw [Bool.and_eq_true]
      constructor
      · rw [Bool.or_eq_true]
        right
        rw [List.any_eq_true]
        exact ⟨kw, hkw, htrig⟩
      · rw [hmiss]
        rfl
    constructor
    · rw [hreasons]
      have hmem : keywordReason kw
          ∈ (g.disclaimer_rules.must_include_disclaimer_if_keywords.filter
              (fun kw => containsSub (lowerStr kw) (lowerStr (draftBlob draft)))).map
            keywordReason :=
        List.mem_map_of_mem _ (List.mem_filter.mpr ⟨hkw, htrig⟩)
      exact List.mem_append.mpr (Or.inl (List.mem_append.mpr (Or.inr hmem)))
    · rw [hreasons, if_pos hcond]
      exact List.mem_append.mpr (Or.inr (List.mem_singleton.mpr rfl))

/-- Witness for C1: the repository's disclaimer-trigger test scenario: the
keyword "recovery" occurs and the disclaimer lacks the default text, so both
reasons are present. -/
theorem evaluate_draft_spec_witness :
    keywordReason (str "recovery")
        ∈ (evaluate_draft trivialEngine
            (mkDraft (str "Let us talk about recovery timelines.") [ str "#test" ]
              (str "Send us a message") (str "General education"))
            (mkGuardrails [] [ str "recovery" ] true)
            (str "Educational information only")).reasons
    ∧ missingDisclaimerReason
        ∈ (evaluate_draft trivialEngine
            (mkDraft (str "Let us talk about recovery timelines.") [ str "#test" ]
              (str "Send us a message") (str "General education"))
            (mkGuardrails [] [ str "recovery" ] true)
            (str "Educational information only")).reasons :=
  (evaluate_draft_spec trivialEngine
    (mkDraft (str "Let us talk about recovery timelines.") [ str "#test" ]
      (str "Send us a message") (str "General education"))
    (mkGuardrails [] [ str "recovery" ] true)
    (str "Educational information only")).2.2
    (str "recovery") (by decide) (by decide) (by decide)

/-! ## Claim C2: assisted-rewrite fallback fields -/

/-- C2 counterexample: in the assisted-rewrite branch, when the backend omits
the disclaimer field the final disclaimer is the client default, not the
draft's original disclaimer as the claim states. -/
theorem assisted_disclaimer_counterexample :
    (review_draft trivialEngine true ⟨none, none, none, none, none⟩
        (mkDraft (str "bad stuff") [ str "#t" ] (str "cta") (str "orig disclaimer"))
        (mkGuardrails [ str "bad" ] [] false) (str "DEFAULT")).final_disclaimer
      = str "DEFAULT"
    ∧ str "DEFAULT"
      ≠ (mkDraft (str "bad stuff") [ str "#t" ] (str "cta")
          (str "orig disclaimer")).disclaimer := by
  exact ⟨by decide, by decide⟩

/-- C2 amended: in the assisted-rewrite branch, an omitted caption, hashtags,
CTA or reel-script field falls back to the corresponding original draft field
value, but an omitted disclaimer falls back to the client's default
disclaimer instead of the draft's original disclaimer. -/
theorem assisted_fallback_fields (E : RegexEngine) (fixed : BackendFix) (draft : DraftItem)
    (g : GuardrailsConfig) (dd : Str)
    (hfail : (evaluate_draft E draft g dd).ok = false) :
    (fixed.caption = none →
      (review_draft E true fixed draft g dd).final_caption = draft.caption)
    ∧ (fixed.hashtags = none →
      (review_draft E true fixed draft g dd).final_hashtags = draft.hashtags)
    ∧ (fixed.cta = none → (review_draft E true fixed draft g dd).final_cta = draft.cta)
    ∧ (fixed.reel_script = none →
      (review_draft E true fixed draft g dd).reel_script = draft.reel_script)
    ∧ (fixed.disclaimer = none →
      (review_draft E true fixed draft g dd).final_disclaimer = dd) := by
  refine ⟨?_, ?_, ?_, ?_, ?_⟩ <;> intro h <;>
    simp [review_draft, hfail, h, normHashtagsResp, normReelResp]

/-- Witness for C2: a failing draft and a backend response omitting every
field: caption falls back to the draft caption, disclaimer to the default. -/
theorem assisted_fallback_fields_witness :
    (review_draft trivialEngine true ⟨none, none, none, none, none⟩
        (mkDraft (str "bad stuff") [ str "#t" ] (str "cta") (str "orig"))
        (mkGuardrails [ str "bad" ] [] false) (str "DEFAULT")).final_caption
      = (mkDraft (str "bad stuff") [ str "#t" ] (str "cta") (str "orig")).caption
    ∧ (review_draft trivialEngine true ⟨none, none, none, none, none⟩
        (mkDraft (str "bad stuff") [ str "#t" ] (str "cta") (str "orig"))
        (mkGuardrails [ str "bad" ] [] false) (str "DEFAULT")).final_disclaimer
      = str "DEFAULT" :=
  ⟨(assisted_fallback_fields trivialEngine ⟨none, none, none, none, none⟩
      (mkDraft (str "bad stuff") [ str "#t" ] (str "cta") (str "orig"))
      (mkGuardrails [ str "bad" ] [] false) (str "DEFAULT") (by decide)).1 rfl,
   (assisted_fallback_fields trivialEngine ⟨none, none, none, none, none⟩
      (mkDraft (str "bad stuff") [ str "#t" ] (str "cta") (str "orig"))
      (mkGuardrails [ str "bad" ] [] false) (str "DEFAULT") (by decide)).2.2.2.2 rfl⟩

/-! ## Claim C9: backend-unavailable repair branch -/

/-- C9: in the backend-unavailable branch with a failing evaluation, the
ReviewedItem has status FAIL (never FIXED), keeps the draft's hashtags, CTA
and reel script unchanged, carries the evaluation reasons with exactly one
extra suggested-fix reason appended, and takes caption and disclaimer from
the deterministic local repair. -/
theorem local_repair_branch_spec (E : RegexEngine) (fixed : BackendFix) (draft : DraftItem)
    (g : GuardrailsConfig) (dd : Str)
    (hfail : (evaluate_draft E draft g dd).ok = false) :
    (review_draft E false fixed draft g dd).status = Status.FAIL
    ∧ (review_draft E false fixed draft g dd).final_hashtags = draft.hashtags
    ∧ (review_draft E false fixed draft g dd).final_cta = draft.cta
    ∧ (review_draft E false fixed draft g dd).reel_script = draft.reel_script
    ∧ (review_draft E false fixed draft g dd).reasons
        = (evaluate_draft E draft g dd).reasons ++ [suggestedFixReason]
    ∧ (review_draft E false fixed draft g dd).final_caption
        = (apply_rewrite_fixes E draft.caption draft.disclaimer g dd).caption
    ∧ (review_draft E false fixed draft g dd).final_disclaimer
        = (apply_rewrite_fixes E draft.caption draft.disclaimer g dd).disclaimer := by
  refine ⟨?_, ?_, ?_, ?_, ?_, ?_, ?_⟩ <;> simp [review_draft, hfail]

/-- Witness for C9: a draft with a banned phrase reviewed with the backend
unavailable. -/
theorem local_repair_branch_witness :
    (review_draft trivialEngine false ⟨none, none, none, none, none⟩
        (mkDraft (str "bad stuff") [ str "#t" ] (str "cta") (str "orig"))
        (mkGuardrails [ str "bad" ] [] false) (str "DEFAULT")).status = Status.FAIL
    ∧ (review_draft trivialEngine false ⟨none, none, none, none, none⟩
        (mkDraft (str "bad stuff") [ str "#t" ] (str "cta") (str "orig"))
        (mkGuardrails [ str "bad" ] [] false) (str "DEFAULT")).reasons
      = (evaluate_draft trivialEngine
          (mkDraft (str "bad stuff") [ str "#t" ] (str "cta") (str "orig"))
          (mkGuardrails [ str "bad" ] [] false) (str "DEFAULT")).reasons
        ++ [suggestedFixReason] :=
  ⟨(local_repair_branch_spec trivialEngine ⟨none, none, none, none, none⟩
      (mkDraft (str "bad stuff") [ str "#t" ] (str "cta") (str "orig"))
      (mkGuardrails [ str "bad" ] [] false) (str "DEFAULT") (by decide)).1,
   (local_repair_branch_spec trivialEngine ⟨none, none, none, none, none⟩
      (mkDraft (str "bad stuff") [ str "#t" ] (str "cta") (str "orig"))
      (mkGuardrails [ str "bad" ] [] false) (str "DEFAULT") (by decide)).2.2.2.2.1⟩

/-! ## Claim C8: hashtag cap on written records -/

/-- C8 counterexample: the assisted-rewrite branch applies no cap, so a
backend response with eleven hashtags produces a FIXED ReviewedItem whose
final hashtag list has eleven entries. -/
theorem review_hashtags_cap_counterexample :
    (review_draft trivialEngine true
        ⟨none, some (Sum.inl (List.replicate 11 (str "#x"))), none, none, none⟩
        (mkDraft (str "bad stuff") [ str "#t" ] (str "cta") (str "orig"))
        (mkGuardrails [ str "bad" ] [] false) (str "DEFAULT")).status = Status.FIXED
    ∧ 10 < (review_draft trivialEngine true
        ⟨none, some (Sum.inl (List.replicate 11 (str "#x"))), none, none, none⟩
        (mkDraft (str "bad stuff") [ str "#t" ] (str "cta") (str "orig"))
        (mkGuardrails [ str "bad" ] [] false) (str "DEFAULT")).final_hashtags.length := by
  exact ⟨by decide, by decide⟩

/-- C8 amended: the Draft Synthesizer caps hashtags at ten on write; the
PASS branch and the backend-unavailable (FAIL) branch of the Review
Orchestrator keep the draft's hashtags, hence respect the cap whenever the
draft does; the assisted-rewrite (FIXED) branch applies no cap and can exceed
ten (see the counterexample). -/
theorem hashtags_cap_spec (raw : Option (Sum (List Str) Str)) (E : RegexEngine)
    (fixed : BackendFix) (draft : DraftItem) (g : GuardrailsConfig) (dd : Str) :
    (draft_hashtags raw).length ≤ 10
    ∧ (draft.hashtags.length ≤ 10 →
        (review_draft E false fixed draft g dd).final_hashtags.length ≤ 10)
    ∧ ((evaluate_draft E draft g dd).ok = true → draft.hashtags.length ≤ 10 →
        (review_draft E true fixed draft g dd).final_hashtags.length ≤ 10) := by
  refine ⟨?_, ?_, ?_⟩
  · exact List.length_take_le 10 _
  · intro hd
    by_cases hok : (evaluate_draft E draft g dd).ok = true
    · simp [review_draft, hok, hd]
    · simp only [Bool.not_eq_true] at hok
      simp [review_draft, hok, hd]
  · intro hok hd
    simp [review_draft, hok, hd]

/-- Witness for C8: a string-valued backend hashtag field and a passing
draft reviewed without a backend. -/
theorem hashtags_cap_witness :
    (draft_hashtags (some (Sum.inr (str "#a #b")))).length ≤ 10
    ∧ (review_draft trivialEngine false ⟨none, none, none, none, none⟩
        (mkDraft (str "fine") [ str "#t" ] (str "cta") (str "d"))
        (mkGuardrails [] [] false) (str "d")).final_hashtags.length ≤ 10 :=
  ⟨(hashtags_cap_spec (some (Sum.inr (str "#a #b"))) trivialEngine
      ⟨none, none, none, none, none⟩
      (mkDraft (str "fine") [ str "#t" ] (str "cta") (str "d"))
      (mkGuardrails [] [] false) (str "d")).1,
   (hashtags_cap_spec (some (Sum.inr (str "#a #b"))) trivialEngine
      ⟨none, none, none, none, none⟩
      (mkDraft (str "fine") [ str "#t" ] (str "cta") (str "d"))
      (mkGuardrails [] [] false) (str "d")).2.1 (by decide)⟩
